import Mathlib

/-!
Shallow embedding of the double-webapp puzzle core (board.ts, game.ts, piece.ts)
and proofs about the claims of its specification.

Conventions of the embedding:
* TS numbers used as cell values are `Nat` (the seven `CELL_*` constants).
* Timestamps, score and coordinates that may go negative are `Int`.
* The board grid `grid[y][x]` is a total function `Int → Int → Cell`; the source
  bounds-checks every access, so out-of-range values are never observed.
* `Math.random()` is modelled by an explicit list of naturals carried in the
  game state; `Math.floor(random * n)` becomes `r % n`.
* `performance.now()` calls that time-stamp a freshly scheduled removal batch or
  spawn are modelled by the `now` parameter of the enclosing operation.
* The BFS worklist loop of `detectLoop` is run on explicit fuel
  `width*height + 1`; each iteration pops one queue element and elements are
  enqueued only when first marked visited, so the fuel is never exhausted on the
  inputs the source can reach.
-/

namespace DoubleApp

/-- Cell values, matching the constants of board.ts. -/
abbrev Cell := Nat

def CELL_EMPTY : Cell := 0
def CELL_LU : Cell := 1
def CELL_LO : Cell := 2
def CELL_RO : Cell := 3
def CELL_RU : Cell := 4
def CELL_WG : Cell := 5
def CELL_SK : Cell := 6

/-- Direction indices, matching board.ts (`UP, DOWN, LEFT, RIGHT`). -/
def DIR_UP : Nat := 0
def DIR_DOWN : Nat := 1
def DIR_LEFT : Nat := 2
def DIR_RIGHT : Nat := 3

/-- A grid coordinate `{x, y}`. -/
abbrev Coord := Int × Int

/-- The board: fixed dimensions and the tile grid, `grid y x` = `grid[y][x]`. -/
structure Board where
  width : Nat
  height : Nat
  grid : Int → Int → Cell

/-- `Board.setCell`. -/
def Board.setCell (b : Board) (x y : Int) (v : Cell) : Board :=
  { b with grid := fun yy xx => if yy = y ∧ xx = x then v else b.grid yy xx }

/-- The port switch of `detectLoop` (board.ts lines 56-93), as the list
`[UP, DOWN, LEFT, RIGHT]` of booleans. -/
def portsFor (cell : Cell) : List Bool :=
  if cell = CELL_LU then [true, false, false, true]
  else if cell = CELL_LO then [false, true, false, true]
  else if cell = CELL_RO then [false, true, true, false]
  else if cell = CELL_RU then [true, false, true, false]
  else if cell = CELL_WG then [false, false, true, true]
  else if cell = CELL_SK then [true, true, false, false]
  else [false, false, false, false]

/-- `ports[d]` for a cell. -/
def port (cell : Cell) (d : Nat) : Bool :=
  (portsFor cell).getD d false

/-- `dirToDelta` of board.ts. -/
def dirToDelta (d : Nat) : Int × Int :=
  if d = DIR_UP then (0, -1)
  else if d = DIR_DOWN then (0, 1)
  else if d = DIR_LEFT then (-1, 0)
  else (1, 0)

/-- `opposite` of board.ts. -/
def opposite (d : Nat) : Nat :=
  if d = DIR_UP then DIR_DOWN
  else if d = DIR_DOWN then DIR_UP
  else if d = DIR_LEFT then DIR_RIGHT
  else DIR_LEFT

/-- In-bounds test used throughout board.ts and game.ts. -/
def Board.inBounds (b : Board) (x y : Int) : Prop :=
  0 ≤ x ∧ x < (b.width : Int) ∧ 0 ≤ y ∧ y < (b.height : Int)

instance (b : Board) (x y : Int) : Decidable (b.inBounds x y) := by
  unfold Board.inBounds; infer_instance

/-- One pass of the `for (let dd = 0; ...)` inner loop of the BFS in
`detectLoop` (board.ts lines 136-160), for the current node `(cx, cy)`.
Returns the found predecessor (for the `break` on reaching the start) together
with the updated visited set, parent map and queue. -/
def scanDirs (b : Board) (sx sy nx ny cx cy : Int) :
    List Nat → List Coord → List (Coord × Coord) → List Coord →
    Option Coord × List Coord × List (Coord × Coord) × List Coord
  | [], visited, parent, q => (none, visited, parent, q)
  | dd :: rest, visited, parent, q =>
    let ports := portsFor (b.grid cy cx)
    if ports.getD dd false = false then scanDirs b sx sy nx ny cx cy rest visited parent q
    else
      let mx := cx + (dirToDelta dd).1
      let my := cy + (dirToDelta dd).2
      if ¬ b.inBounds mx my then scanDirs b sx sy nx ny cx cy rest visited parent q
      else if b.grid my mx = CELL_EMPTY then scanDirs b sx sy nx ny cx cy rest visited parent q
      else if port (b.grid my mx) (opposite dd) = false then
        scanDirs b sx sy nx ny cx cy rest visited parent q
      else if cx = nx ∧ cy = ny ∧ mx = sx ∧ my = sy then
        scanDirs b sx sy nx ny cx cy rest visited parent q
      else if (mx, my) ∈ visited then scanDirs b sx sy nx ny cx cy rest visited parent q
      else
        let visited2 := (mx, my) :: visited
        let parent2 := ((mx, my), (cx, cy)) :: parent
        if mx = sx ∧ my = sy then (some (cx, cy), visited2, parent2, q)
        else scanDirs b sx sy nx ny cx cy rest visited2 parent2 (q ++ [(mx, my)])

/-- The `while (q.length > 0 && !found)` BFS loop of `detectLoop`
(board.ts lines 129-161), on fuel.  Returns the predecessor that reached the
start, together with the parent map at that moment. -/
def bfsLoop (b : Board) (sx sy nx ny : Int) :
    Nat → List Coord → List Coord → List (Coord × Coord) →
    Option (Coord × List (Coord × Coord))
  | 0, _, _, _ => none
  | _ + 1, [], _, _ => none
  | fuel + 1, cur :: qrest, visited, parent =>
    match scanDirs b sx sy nx ny cur.1 cur.2 [0, 1, 2, 3] visited parent qrest with
    | (some pred, _, parent2, _) => some (pred, parent2)
    | (none, visited2, parent2, q2) => bfsLoop b sx sy nx ny fuel q2 visited2 parent2

/-- Reconstruction of the chain from the predecessor back to the neighbour
(board.ts lines 166-173), on fuel (the parent map is a forest, its chains are
shorter than the number of cells). -/
def reconstructChain (nx ny : Int) (parent : List (Coord × Coord)) :
    Nat → Coord → List Coord
  | 0, _ => []
  | fuel + 1, cur =>
    cur :: (if cur.1 = nx ∧ cur.2 = ny then []
      else match parent.lookup cur with
        | none => []
        | some par => reconstructChain nx ny parent fuel par)

/-- The `for (let d = 0; d < 4; d++)` neighbour loop of `detectLoop`
(board.ts lines 105-178). -/
def tryDirs (b : Board) (x y : Int) : List Nat → Option (List Coord)
  | [] => none
  | d :: rest =>
    if (portsFor (b.grid y x)).getD d false = false then tryDirs b x y rest
    else
      let nx := x + (dirToDelta d).1
      let ny := y + (dirToDelta d).2
      if ¬ b.inBounds nx ny then tryDirs b x y rest
      else if b.grid ny nx = CELL_EMPTY then tryDirs b x y rest
      else if port (b.grid ny nx) (opposite d) = false then tryDirs b x y rest
      else
        let fuel := b.width * b.height + 1
        match bfsLoop b x y nx ny fuel [(nx, ny)] [(nx, ny)] [((nx, ny), (x, y))] with
        | some (pred, parent2) =>
          some ((x, y) :: reconstructChain nx ny parent2 fuel pred)
        | none => tryDirs b x y rest

/-- `Board.detectLoop` (board.ts lines 47-181). The embedding is pure: the
source function only reads the grid, so the board is returned unchanged by
construction. -/
def Board.detectLoop (b : Board) (x y : Int) : Option (List Coord) :=
  if b.grid y x = CELL_EMPTY then none
  else tryDirs b x y [0, 1, 2, 3]

/-! ### Piece (piece.ts) -/

/-- `shape[x][y]` access with the JS out-of-range default treated as empty. -/
def shapeAt (s : List (List Cell)) (x y : Nat) : Cell :=
  (((s.get? x).getD []).get? y).getD 0

/-- The `PIECE_SHAPES` table of piece.ts (shape is `[rotation][x][y]`). -/
def PIECE_SHAPES : List (List (List (List Cell))) :=
  [ -- Small corner (lu)
    [[[CELL_LO], [CELL_EMPTY], [CELL_EMPTY]],
     [[CELL_RO], [CELL_EMPTY], [CELL_EMPTY]],
     [[CELL_RU], [CELL_EMPTY], [CELL_EMPTY]],
     [[CELL_LU], [CELL_EMPTY], [CELL_EMPTY]]],
    -- Short straight
    [[[CELL_SK], [CELL_EMPTY], [CELL_EMPTY]],
     [[CELL_WG], [CELL_EMPTY], [CELL_EMPTY]]],
    -- Long straight
    [[[CELL_SK, CELL_SK], [CELL_EMPTY, CELL_EMPTY], [CELL_EMPTY, CELL_EMPTY]],
     [[CELL_WG, CELL_EMPTY], [CELL_WG, CELL_EMPTY], [CELL_EMPTY, CELL_EMPTY]]],
    -- S-piece 1
    [[[CELL_LU, CELL_EMPTY], [CELL_RO, CELL_EMPTY], [CELL_EMPTY, CELL_EMPTY]],
     [[CELL_LO, CELL_RU], [CELL_EMPTY, CELL_EMPTY], [CELL_EMPTY, CELL_EMPTY]]],
    -- S-piece 2
    [[[CELL_LO, CELL_EMPTY], [CELL_RU, CELL_EMPTY], [CELL_EMPTY, CELL_EMPTY]],
     [[CELL_RO, CELL_LU], [CELL_EMPTY, CELL_EMPTY], [CELL_EMPTY, CELL_EMPTY]]],
    -- U-turn piece
    [[[CELL_LO, CELL_EMPTY], [CELL_RO, CELL_EMPTY], [CELL_EMPTY, CELL_EMPTY]],
     [[CELL_RO, CELL_RU], [CELL_EMPTY, CELL_EMPTY], [CELL_EMPTY, CELL_EMPTY]],
     [[CELL_LU, CELL_EMPTY], [CELL_RU, CELL_EMPTY], [CELL_EMPTY, CELL_EMPTY]],
     [[CELL_LO, CELL_LU], [CELL_EMPTY, CELL_EMPTY], [CELL_EMPTY, CELL_EMPTY]]],
    -- Noname piece 1
    [[[CELL_LO, CELL_EMPTY], [CELL_WG, CELL_EMPTY], [CELL_EMPTY, CELL_EMPTY]],
     [[CELL_RO, CELL_SK], [CELL_EMPTY, CELL_EMPTY], [CELL_EMPTY, CELL_EMPTY]],
     [[CELL_WG, CELL_RU], [CELL_EMPTY, CELL_EMPTY], [CELL_EMPTY, CELL_EMPTY]],
     [[CELL_SK, CELL_LU], [CELL_EMPTY, CELL_EMPTY], [CELL_EMPTY, CELL_EMPTY]]],
    -- Noname piece 2
    [[[CELL_LU, CELL_EMPTY], [CELL_WG, CELL_EMPTY], [CELL_EMPTY, CELL_EMPTY]],
     [[CELL_LO, CELL_SK], [CELL_EMPTY, CELL_EMPTY], [CELL_EMPTY, CELL_EMPTY]],
     [[CELL_WG, CELL_RO], [CELL_EMPTY, CELL_EMPTY], [CELL_EMPTY, CELL_EMPTY]],
     [[CELL_SK, CELL_RU], [CELL_EMPTY, CELL_EMPTY], [CELL_EMPTY, CELL_EMPTY]]],
    -- Honeynut Loop
    [[[CELL_LO, CELL_LU], [CELL_RO, CELL_RU], [CELL_EMPTY, CELL_EMPTY]]],
    -- Wulst
    [[[CELL_LO, CELL_RU], [CELL_RO, CELL_LU], [CELL_EMPTY, CELL_EMPTY]],
     [[CELL_LU, CELL_LO], [CELL_RO, CELL_RU], [CELL_EMPTY, CELL_EMPTY]],
     [[CELL_RO, CELL_LU], [CELL_LO, CELL_RU], [CELL_EMPTY, CELL_EMPTY]],
     [[CELL_LO, CELL_LU], [CELL_RU, CELL_RO], [CELL_EMPTY, CELL_EMPTY]]],
    -- Graffl
    [[[CELL_LO, CELL_SK, CELL_LU], [CELL_WG, CELL_EMPTY, CELL_EMPTY],
      [CELL_RO, CELL_EMPTY, CELL_EMPTY]],
     [[CELL_LO, CELL_EMPTY, CELL_EMPTY], [CELL_WG, CELL_EMPTY, CELL_EMPTY],
      [CELL_RO, CELL_SK, CELL_RU]],
     [[CELL_EMPTY, CELL_EMPTY, CELL_LU], [CELL_EMPTY, CELL_EMPTY, CELL_WG],
      [CELL_RO, CELL_SK, CELL_RU]],
     [[CELL_LO, CELL_SK, CELL_LU], [CELL_EMPTY, CELL_EMPTY, CELL_WG],
      [CELL_EMPTY, CELL_EMPTY, CELL_RU]]],
    -- Large corner
    [[[CELL_LO, CELL_SK], [CELL_WG, CELL_EMPTY], [CELL_EMPTY, CELL_EMPTY]],
     [[CELL_WG, CELL_EMPTY], [CELL_RO, CELL_SK], [CELL_EMPTY, CELL_EMPTY]],
     [[CELL_EMPTY, CELL_WG], [CELL_SK, CELL_RU], [CELL_EMPTY, CELL_EMPTY]],
     [[CELL_SK, CELL_LU], [CELL_EMPTY, CELL_WG], [CELL_EMPTY, CELL_EMPTY]]]]

/-- The `Piece` class of piece.ts. -/
structure Piece where
  shapes : List (List (List Cell))
  rotation : Nat
  x : Int
  y : Int

/-- The `shape` getter: `shapes[rotation % shapes.length]`. -/
def Piece.shape (p : Piece) : List (List Cell) :=
  (p.shapes.get? (p.rotation % p.shapes.length)).getD []

/-- `Piece.move`. -/
def Piece.move (p : Piece) (dx dy : Int) : Piece :=
  { p with x := p.x + dx, y := p.y + dy }

/-- `Piece.rotate` (piece.ts lines 254-273): with several authored variants the
rotation index cycles; with a single variant `shapes[0]` is replaced by the
matrix built column-by-column from `shape[sizeX-1-k][y]`. -/
def Piece.rotate (p : Piece) : Piece :=
  if 1 < p.shapes.length then
    { p with rotation := (p.rotation + 1) % p.shapes.length }
  else
    let shape := p.shapes.headD []
    let sizeX := shape.length
    let sizeY := (shape.headD []).length
    let rotated := (List.range sizeY).map
      (fun y => ((List.range sizeX).reverse).map (fun x => shapeAt shape x y))
    { p with shapes := [rotated] }

/-! ### Game (game.ts, first variant, lines 1-482) -/

/-- The `loopRemoval` animation record of game.ts. -/
structure RemovalState where
  active : Bool
  cells : List Coord
  index : Nat
  lastTime : Int
  interval : Int
  pointsPerTile : Option Int

/-- The game state.  `state.currentPiece` always mirrors `this.currentPiece`
in the source, so a single field represents both; `rng` is the stream of
`Math.random()` draws. -/
structure Game where
  board : Board
  currentPiece : Option Piece
  score : Int
  highScores : List Int
  isRunning : Bool
  isGameOver : Bool
  timerRemaining : Int
  timerDuration : Int
  lastTimerTick : Int
  loopRemoval : RemovalState
  rng : List Nat

/-- Next `Math.random()` draw. -/
def randHead (l : List Nat) : Nat := l.headD 0

def randTail (l : List Nat) : List Nat := l.tail

/-- `Game.end` (game.ts lines 63-67) together with `saveHighScore`
(lines 73-77): push, sort descending, keep the top 10. -/
def sortDesc (l : List Int) : List Int :=
  l.mergeSort (fun a b => decide (b ≤ a))

def endG (g : Game) : Game :=
  { g with isRunning := false, isGameOver := true,
           highScores := (sortDesc (g.highScores ++ [g.score])).take 10 }

/-- `Game.spawnPiece` (game.ts lines 79-100); the four `Math.random()` draws
are taken from the rng stream in source order (shape index, x, y, rotation). -/
def spawnPieceG (g : Game) (now : Int) : Game :=
  let r1 := randHead g.rng
  let rng1 := randTail g.rng
  let idx := r1 % PIECE_SHAPES.length
  let shape := (PIECE_SHAPES.get? idx).getD []
  let pieceWidth := ((shape.get? 0).getD []).length
  let pieceHeight := ((((shape.get? 0).getD []).get? 0).getD []).length
  let maxX : Int := (g.board.width : Int) - pieceWidth
  let maxY : Int := (g.board.height : Int) - pieceHeight
  let r2 := randHead rng1
  let rng2 := randTail rng1
  let r3 := randHead rng2
  let rng3 := randTail rng2
  let randX : Int := (r2 : Int) % (maxX + 1)
  let randY : Int := (r3 : Int) % (maxY + 1)
  let r4 := randHead rng3
  let rng4 := randTail rng3
  let rotation := r4 % shape.length
  { g with
      currentPiece := some { shapes := shape, rotation := rotation, x := randX, y := randY },
      timerRemaining := g.timerDuration, lastTimerTick := now, rng := rng4 }

/-- `Game.checkPlacementCollision` (game.ts lines 198-222). -/
def checkPlacementCollision (b : Board) (p : Piece) : Bool :=
  let s := p.shape
  let w := s.length
  let h := (s.headD []).length
  (List.range w).any fun x => (List.range h).any fun y =>
    let ct := shapeAt s x y
    ct ≠ 0 ∧ ¬ (b.inBounds (p.x + x) (p.y + y) ∧ b.grid (p.y + y) (p.x + x) = 0)

/-- The ordered `(x, y)` iteration space of the nested shape loops. -/
def pairList (w h : Nat) : List (Nat × Nat) :=
  (List.range w).flatMap fun x => (List.range h).map fun y => (x, y)

/-- One iteration of the exact-match scan of `placePiece` (game.ts lines
237-260): once the flag has dropped to false the loop has broken out, so the
state passes through unchanged. -/
def emStep (b : Board) (p : Piece) (st : Bool × Nat) (xy : Nat × Nat) : Bool × Nat :=
  if st.1 = false then st
  else
    let ct := shapeAt p.shape xy.1 xy.2
    if ct = 0 then st
    else
      let cnt := st.2 + 1
      if ¬ b.inBounds (p.x + xy.1) (p.y + xy.2) then (false, cnt)
      else if b.grid (p.y + xy.2) (p.x + xy.1) ≠ ct then (false, cnt)
      else (true, cnt)

/-- The `(exactMatch, nonEmptyCount)` pair computed by `placePiece` and by the
timeout branch of `update`. -/
def exactMatchScan (b : Board) (p : Piece) : Bool × Nat :=
  let s := p.shape
  (pairList s.length (s.headD []).length).foldl (emStep b p) (true, 0)

/-- The footprint cells pushed by the removal-scheduling loops of game.ts
(lines 268-274 and 403-410), in source order. -/
def footprintCells (p : Piece) : List Coord :=
  let s := p.shape
  (List.range s.length).flatMap fun x =>
    (List.range (s.headD []).length).filterMap fun y =>
      if shapeAt s x y ≠ 0 then some ((p.x + x : Int), (p.y + y : Int)) else none

/-- Activation of a removal batch (game.ts lines 275-282, 338-342, 411-418):
record the cells, reset the cursor, time-stamp it and hide the piece. -/
def scheduleRemoval (g : Game) (cells : List Coord) (ppt : Int) (now : Int) : Game :=
  { g with
      currentPiece := none,
      loopRemoval := { g.loopRemoval with
        cells := cells, index := 0, active := true, lastTime := now,
        pointsPerTile := some ppt } }

/-- The placement write loop (game.ts lines 294-321): write each non-empty
tile that lands in bounds and query `detectLoop` on the updated board,
collecting every returned loop. -/
def placeTiles (b : Board) (p : Piece) : Board × Bool × List Coord :=
  let s := p.shape
  (pairList s.length (s.headD []).length).foldl
    (fun st xy =>
      let ct := shapeAt s xy.1 xy.2
      if ct = 0 then st
      else if st.1.inBounds (p.x + xy.1) (p.y + xy.2) then
        let b2 := st.1.setCell (p.x + xy.1) (p.y + xy.2) ct
        match b2.detectLoop (p.x + xy.1) (p.y + xy.2) with
        | some l => (b2, true, st.2.2 ++ l)
        | none => (b2, st.2.1, st.2.2)
      else st)
    (b, false, [])

/-- First-occurrence deduplication of the collected loop cells
(game.ts lines 328-337). -/
def dedupCoords (l : List Coord) : List Coord :=
  l.foldl (fun acc c => if c ∈ acc then acc else acc ++ [c]) []

/-- The tail of `placePiece` from the collision check down
(game.ts lines 288-349). -/
def placeNormal (g : Game) (piece : Piece) (now : Int) : Game :=
  if checkPlacementCollision g.board piece = true then g
  else
    let r := placeTiles g.board piece
    let g2 := { g with board := r.1, currentPiece := none }
    if r.2.1 = true then scheduleRemoval g2 (dedupCoords r.2.2) 1 now
    else spawnPieceG g2 now

/-- `Game.placePiece` (game.ts lines 224-350). -/
def placePieceG (g : Game) (now : Int) : Game :=
  match g.currentPiece with
  | none => g
  | some piece =>
    let em := exactMatchScan g.board piece
    if em.1 = true ∧ 0 < em.2 then
      if 2 * (em.2 : Int) ≤ g.score then
        scheduleRemoval g (footprintCells piece) (-2) now
      else placeNormal g piece now
    else placeNormal g piece now

/-- The occupied cells of a shape, per-column lengths as in the bounding-box
loop of `rotatePiece` (game.ts lines 146-155). -/
def occupiedCells (s : List (List Cell)) : List (Nat × Nat) :=
  (List.range s.length).flatMap fun cx =>
    (List.range ((s.get? cx).getD []).length).filterMap fun cy =>
      if shapeAt s cx cy ≠ 0 then some (cx, cy) else none

/-- Minimum of a list, as computed by the running fold that starts at plus
infinity (only used on non-empty lists). -/
def natMin (l : List Nat) : Nat :=
  match l with
  | [] => 0
  | a :: as => as.foldl min a

/-- Maximum of a list, as computed by the running fold that starts at minus
infinity (only used on non-empty lists). -/
def natMax (l : List Nat) : Nat :=
  match l with
  | [] => 0
  | a :: as => as.foldl max a

/-- The kick offsets `[0, -1, 1, -2, 2]` paired x-outer, y-inner
(game.ts lines 173-187). -/
def kickPairs : List (Int × Int) :=
  ([0, -1, 1, -2, 2] : List Int).flatMap fun dx =>
    ([0, -1, 1, -2, 2] : List Int).map fun dy => (dx, dy)

/-- `Game.rotatePiece` (game.ts lines 130-195). -/
def rotatePieceG (g : Game) : Game :=
  match g.currentPiece with
  | none => g
  | some piece =>
    let oldRotation := piece.rotation
    let oldX := piece.x
    let oldY := piece.y
    let p := piece.rotate
    let occ := occupiedCells p.shape
    if occ = [] then { g with currentPiece := some { p with rotation := oldRotation } }
    else
      let minXA : Int := -(natMin (occ.map Prod.fst) : Int)
      let maxXA : Int := (g.board.width : Int) - 1 - (natMax (occ.map Prod.fst) : Int)
      let minYA : Int := -(natMin (occ.map Prod.snd) : Int)
      let maxYA : Int := (g.board.height : Int) - 1 - (natMax (occ.map Prod.snd) : Int)
      let baseX := min (max p.x minXA) maxXA
      let baseY := min (max p.y minYA) maxYA
      match kickPairs.find? (fun k =>
          decide (minXA ≤ baseX + k.1) && decide (baseX + k.1 ≤ maxXA) &&
          decide (minYA ≤ baseY + k.2) && decide (baseY + k.2 ≤ maxYA)) with
      | some k => { g with currentPiece := some { p with x := baseX + k.1, y := baseY + k.2 } }
      | none =>
        { g with currentPiece := some { p with rotation := oldRotation, x := oldX, y := oldY } }

/-- The board-empty check run when a batch finishes (game.ts lines 465-473). -/
def boardEmptyB (b : Board) : Bool :=
  (List.range b.height).all fun yy =>
    (List.range b.width).all fun xx => b.grid yy xx = CELL_EMPTY

/-- The timeout branch of `update` (game.ts lines 363-436). -/
def handleTimeout (g : Game) (now : Int) : Game :=
  match g.currentPiece with
  | none => endG g
  | some piece =>
    let em := exactMatchScan g.board piece
    if em.1 = true ∧ 0 < em.2 then
      if 2 * (em.2 : Int) ≤ g.score then
        scheduleRemoval g (footprintCells piece) (-2) now
      else endG g
    else
      if checkPlacementCollision g.board piece = true then endG g
      else
        let g2 := placePieceG g now
        { g2 with timerRemaining := g2.timerDuration, lastTimerTick := now }

/-- The guarded clearing of the batch cell under the cursor
(game.ts lines 450-456): skip a missing or out-of-bounds entry, otherwise
empty the cell and apply the per-tile delta. -/
def clearCell (g : Game) (c? : Option Coord) (ppt : Int) : Game :=
  match c? with
  | some c =>
    if g.board.inBounds c.1 c.2 then
      { g with board := g.board.setCell c.1 c.2 CELL_EMPTY, score := g.score + ppt }
    else g
  | none => g

/-- The removal-animation half of `update` (game.ts lines 445-481). -/
def removalPhase (g : Game) (now : Int) : Game :=
  if g.loopRemoval.active = false then g
  else if g.loopRemoval.interval ≤ now - g.loopRemoval.lastTime then
    let lr := g.loopRemoval
    let g2 := clearCell g (lr.cells.get? lr.index) (lr.pointsPerTile.getD 1)
    let g3 := { g2 with loopRemoval := { lr with index := lr.index + 1, lastTime := now } }
    if lr.cells.length ≤ lr.index + 1 then
      let g4 := { g3 with
        loopRemoval := { g3.loopRemoval with active := false, pointsPerTile := some 1 } }
      let g5 := if boardEmptyB g4.board = true then { g4 with score := g4.score * 2 } else g4
      spawnPieceG g5 now
    else g3
  else g

/-- `Game.update` (game.ts lines 353-481): the timer half followed by the
removal-animation half. -/
def updateG (g : Game) (now : Int) : Game :=
  let g1 :=
    if g.isRunning = true ∧ g.isGameOver = false then
      if g.loopRemoval.active = false then
        let last := if g.lastTimerTick = 0 then now else g.lastTimerTick
        let dt := now - last
        let rem := max 0 (g.timerRemaining - dt)
        let g2 := { g with lastTimerTick := now, timerRemaining := rem }
        if rem ≤ 0 then handleTimeout g2 now else g2
      else g
    else g
  removalPhase g1 now

/-! ### Concrete test fixtures -/

/-- The 2x2 configuration named by the specification: LO at (0,0), RU at (1,0),
LU at (0,1), RO at (1,1), on the default 10x20 board. -/
def loopBoardClaim : Board :=
  { width := 10, height := 20,
    grid := fun y x =>
      if y = 0 ∧ x = 0 then CELL_LO
      else if y = 0 ∧ x = 1 then CELL_RU
      else if y = 1 ∧ x = 0 then CELL_LU
      else if y = 1 ∧ x = 1 then CELL_RO
      else CELL_EMPTY }

/-- The 2x2 configuration that the port table actually makes mutually
connected: LO at (0,0), RO at (1,0), LU at (0,1), RU at (1,1). -/
def loopBoardFixed : Board :=
  { width := 10, height := 20,
    grid := fun y x =>
      if y = 0 ∧ x = 0 then CELL_LO
      else if y = 0 ∧ x = 1 then CELL_RO
      else if y = 1 ∧ x = 0 then CELL_LU
      else if y = 1 ∧ x = 1 then CELL_RU
      else CELL_EMPTY }

/-- The four cells of the 2x2 square. -/
def cellsSquare : List Coord := [(0, 0), (1, 0), (0, 1), (1, 1)]

/-- The round-trip property claimed for `detectLoop` on the 2x2 square: a
non-empty result whose deduplication covers all four cells. -/
def coversSquare (o : Option (List Coord)) : Bool :=
  match o with
  | none => false
  | some l => decide (l ≠ []) && cellsSquare.all (fun c => decide (c ∈ dedupCoords l))

/-! ### Claim C10 -/

/-- Claim C10: for every grid and in-bounds coordinates whose cell is Empty,
`detectLoop` reports no loop (the embedding is a pure function of the board, so
the grid is untouched by construction). -/
theorem detectLoop_empty_cell_none (b : Board) (x y : Int)
    (hin : b.inBounds x y) (hempty : b.grid y x = CELL_EMPTY) :
    b.detectLoop x y = none := by
  unfold Board.detectLoop
  rw [hempty]
  simp

/-- Witness for C10 at an in-bounds empty cell of a concrete board. -/
theorem detectLoop_empty_cell_none_witness :
    loopBoardFixed.inBounds 5 7 ∧ loopBoardFixed.grid 7 5 = CELL_EMPTY ∧
    loopBoardFixed.detectLoop 5 7 = none :=
  ⟨by decide, by decide, detectLoop_empty_cell_none loopBoardFixed 5 7 (by decide) (by decide)⟩

/-! ### Claim C1 -/

/-- Counterexample to claim C1 as stated: with RU at (1,0) and RO at (1,1) the
port table connects neither tile to the other across the right edge, so
`detectLoop` finds no loop at any of the four coordinates. -/
theorem detectLoop_claimed_square_fails :
    loopBoardClaim.detectLoop 0 0 = none ∧
    coversSquare (loopBoardClaim.detectLoop 0 0) = false ∧
    coversSquare (loopBoardClaim.detectLoop 1 0) = false ∧
    coversSquare (loopBoardClaim.detectLoop 0 1) = false ∧
    coversSquare (loopBoardClaim.detectLoop 1 1) = false := by
  decide

/-- Claim C1 (amended): on the mutually connected 2x2 cycle — LO at (0,0),
RO at (1,0), LU at (0,1), RU at (1,1) — `detectLoop` called at any of the four
coordinates returns a non-empty sequence covering all four cells after
deduplication. -/
theorem detectLoop_square_roundtrip :
    coversSquare (loopBoardFixed.detectLoop 0 0) = true ∧
    coversSquare (loopBoardFixed.detectLoop 1 0) = true ∧
    coversSquare (loopBoardFixed.detectLoop 0 1) = true ∧
    coversSquare (loopBoardFixed.detectLoop 1 1) = true := by
  decide

/-! ### Claim C3 -/

/-- The 90-degree clockwise rotation of an `[x][y]` shape matrix in the
spec's own convention (x = column, y = row, origin top-left): the cell at
column c, row r moves to column `height-1-r`, row c.
Modelled from the spec: this is the transformation the spec asserts
`rotate()` performs on a single-variant piece; the code is compared
against it. -/
def rotateCWspec (m : List (List Cell)) : List (List Cell) :=
  let w := m.length
  let h := (m.headD []).length
  (List.range h).map fun xq => (List.range w).map fun yq => shapeAt m yq (h - 1 - xq)

/-- A single-variant piece holding the column [LU over nothing] next to [LO]:
two columns, one row. -/
def pieceC3 : Piece := { shapes := [[[CELL_LU], [CELL_LO]]], rotation := 0, x := 0, y := 0 }

/-- Counterexample to claim C3 as stated: rotating the single-variant
horizontal shape [LU, LO] produces the column [LO over LU] (the lower-indexed
column ends at the bottom), which is the counter-clockwise image; the
clockwise rotation would be [LU over LO]. -/
theorem rotate_single_not_clockwise :
    pieceC3.rotate.shapes = [[[CELL_LO, CELL_LU]]] ∧
    rotateCWspec (pieceC3.shapes.headD []) = [[CELL_LU, CELL_LO]] ∧
    pieceC3.rotate.shapes ≠ [rotateCWspec (pieceC3.shapes.headD [])] := by
  decide

/-- Claim C3 (amended): for every piece with exactly one rotation variant and
rotation index 0, `rotate` replaces the sole shape matrix in place with its
90-degree counter-clockwise rotation (entry (xq, yq) of the new matrix is
entry (oldWidth-1-yq, xq) of the old one), the dimensions swap (new height =
old width, new width = old height), and the rotation index stays 0. -/
theorem rotate_single_variant_ccw (p : Piece) (h1 : p.shapes.length = 1)
    (h2 : p.rotation = 0) :
    p.rotate.rotation = 0 ∧ p.rotate.x = p.x ∧ p.rotate.y = p.y ∧
    p.rotate.shapes.length = 1 ∧
    (p.rotate.shapes.headD []).length = ((p.shapes.headD []).headD []).length ∧
    (∀ col ∈ p.rotate.shapes.headD [], col.length = (p.shapes.headD []).length) ∧
    (∀ xq yq, xq < ((p.shapes.headD []).headD []).length →
      yq < (p.shapes.headD []).length →
      shapeAt (p.rotate.shapes.headD []) xq yq =
        shapeAt (p.shapes.headD []) ((p.shapes.headD []).length - 1 - yq) xq) := by
  obtain ⟨m, hm⟩ := List.length_eq_one.mp h1
  have hnot : ¬ 1 < p.shapes.length := by omega
  unfold Piece.rotate
  rw [if_neg hnot, hm]
  refine ⟨h2, rfl, rfl, rfl, by simp, ?_, ?_⟩
  · intro col hcol
    simp only [List.headD, List.mem_map] at hcol
    obtain ⟨a, _, ha⟩ := hcol
    simp [← ha]
  · intro xq yq hx hy
    simp only [List.headD] at hx hy ⊢
    unfold shapeAt
    rw [List.get?_map, List.get?_range (by simpa using hx)]
    simp only [Option.map_some', Option.getD_some]
    rw [List.get?_map, List.get?_reverse, List.length_range,
      List.get?_range (by omega)]
    · simp [shapeAt]
    · simpa using hy

/-- Witness for C3 (amended) at the concrete single-variant piece. -/
theorem rotate_single_variant_ccw_witness :
    pieceC3.shapes.length = 1 ∧ pieceC3.rotation = 0 ∧
    (pieceC3.rotate.rotation = 0 ∧ pieceC3.rotate.x = pieceC3.x ∧
      pieceC3.rotate.y = pieceC3.y ∧
      pieceC3.rotate.shapes.length = 1 ∧
      (pieceC3.rotate.shapes.headD []).length =
        ((pieceC3.shapes.headD []).headD []).length ∧
      (∀ col ∈ pieceC3.rotate.shapes.headD [],
        col.length = (pieceC3.shapes.headD []).length) ∧
      (∀ xq yq, xq < ((pieceC3.shapes.headD []).headD []).length →
        yq < (pieceC3.shapes.headD []).length →
        shapeAt (pieceC3.rotate.shapes.headD []) xq yq =
          shapeAt (pieceC3.shapes.headD [])
            ((pieceC3.shapes.headD []).length - 1 - yq) xq)) :=
  ⟨rfl, rfl, rotate_single_variant_ccw pieceC3 rfl rfl⟩

/-! ### Exact-match machinery (claims C4, C5, C6) -/

/-- Per-cell admissibility checked by the exact-match scan: the shape cell is
empty, or it lands in bounds on an identical grid cell. -/
def cellOKB (b : Board) (p : Piece) (xy : Nat × Nat) : Bool :=
  decide (shapeAt p.shape xy.1 xy.2 = 0) ||
    (decide (b.inBounds (p.x + xy.1) (p.y + xy.2)) &&
      decide (b.grid (p.y + xy.2) (p.x + xy.1) = shapeAt p.shape xy.1 xy.2))

lemma emStep_fst (b : Board) (p : Piece) (st : Bool × Nat) (xy : Nat × Nat) :
    (emStep b p st xy).1 = true ↔ (st.1 = true ∧ cellOKB b p xy = true) := by
  rcases st with ⟨f, c⟩
  unfold emStep cellOKB
  rcases f <;> simp <;> split_ifs <;> simp_all

lemma foldl_emStep_fst (b : Board) (p : Piece) (l : List (Nat × Nat)) :
    ∀ st : Bool × Nat, (l.foldl (emStep b p) st).1 = true ↔
      (st.1 = true ∧ ∀ xy ∈ l, cellOKB b p xy = true) := by
  induction l with
  | nil => intro st; simp
  | cons a t ih =>
    intro st
    rw [List.foldl_cons, ih, emStep_fst]
    simp only [List.forall_mem_cons]
    tauto

lemma emStep_ok_snd (b : Board) (p : Piece) (st : Bool × Nat) (xy : Nat × Nat)
    (hok : cellOKB b p xy = true) (hst : st.1 = true) :
    emStep b p st xy = (true, st.2 + if shapeAt p.shape xy.1 xy.2 ≠ 0 then 1 else 0) := by
  rcases st with ⟨f, c⟩
  cases f
  · simp at hst
  · unfold emStep cellOKB at *
    split_ifs at hok ⊢ <;> simp_all

lemma foldl_emStep_snd (b : Board) (p : Piece) (l : List (Nat × Nat)) :
    ∀ st : Bool × Nat, st.1 = true → (∀ xy ∈ l, cellOKB b p xy = true) →
      (l.foldl (emStep b p) st).2 =
        st.2 + l.countP (fun xy => decide (shapeAt p.shape xy.1 xy.2 ≠ 0)) := by
  induction l with
  | nil => simp
  | cons a t ih =>
    intro st hst hall
    rw [List.foldl_cons, emStep_ok_snd b p st a (hall a (by simp)) hst,
      ih _ rfl (fun xy hxy => hall xy (by simp [hxy])), List.countP_cons]
    split_ifs <;> simp_all <;> try omega

lemma mem_pairList (w h : Nat) (xy : Nat × Nat) :
    xy ∈ pairList w h ↔ xy.1 < w ∧ xy.2 < h := by
  rcases xy with ⟨x, y⟩
  simp [pairList, List.mem_flatMap, List.mem_map, List.mem_range]

/-- The two halves of the scan: the flag is the conjunction of the per-cell
checks, and when it holds the counter is the number of non-empty shape
cells. -/
lemma exactMatchScan_spec (b : Board) (p : Piece) :
    ((exactMatchScan b p).1 = true ↔
      ∀ xy ∈ pairList p.shape.length (p.shape.headD []).length, cellOKB b p xy = true) ∧
    ((exactMatchScan b p).1 = true →
      (exactMatchScan b p).2 =
        (pairList p.shape.length (p.shape.headD []).length).countP
          (fun xy => decide (shapeAt p.shape xy.1 xy.2 ≠ 0))) := by
  constructor
  · unfold exactMatchScan
    rw [foldl_emStep_fst]
    simp
  · intro h
    unfold exactMatchScan at h ⊢
    rw [foldl_emStep_snd b p _ (true, 0) rfl ((foldl_emStep_fst b p _ (true, 0)).mp h).2]
    simp

/-- Characterization of the exact-match predicate, shared by the proofs
below. -/
lemma exactMatch_iff_cells (b : Board) (p : Piece) :
    ((exactMatchScan b p).1 = true ∧ 0 < (exactMatchScan b p).2) ↔
      ((∀ cx cy, cx < p.shape.length → cy < (p.shape.headD []).length →
          shapeAt p.shape cx cy ≠ 0 →
          b.inBounds (p.x + cx) (p.y + cy) ∧
            b.grid (p.y + cy) (p.x + cx) = shapeAt p.shape cx cy) ∧
        ∃ cx cy, cx < p.shape.length ∧ cy < (p.shape.headD []).length ∧
          shapeAt p.shape cx cy ≠ 0) := by
  obtain ⟨hfst, hsnd⟩ := exactMatchScan_spec b p
  constructor
  · rintro ⟨h1, h2⟩
    have hall := hfst.mp h1
    refine ⟨?_, ?_⟩
    · intro cx cy hcx hcy hct
      have hk := hall (cx, cy) ((mem_pairList _ _ _).mpr ⟨hcx, hcy⟩)
      unfold cellOKB at hk
      simp only [Bool.or_eq_true, Bool.and_eq_true, decide_eq_true_eq] at hk
      rcases hk with hk | hk
      · exact absurd hk hct
      · exact hk
    · rw [hsnd h1] at h2
      obtain ⟨xy, hmem, hxy⟩ := List.countP_pos.mp h2
      exact ⟨xy.1, xy.2, ((mem_pairList _ _ _).mp hmem).1,
        ((mem_pairList _ _ _).mp hmem).2, by simpa using hxy⟩
  · rintro ⟨hall, cx, cy, hcx, hcy, hct⟩
    have h1 : (exactMatchScan b p).1 = true := by
      apply hfst.mpr
      intro xy hxy
      unfold cellOKB
      by_cases hz : shapeAt p.shape xy.1 xy.2 = 0
      · simp [hz]
      · have := hall xy.1 xy.2 ((mem_pairList _ _ _).mp hxy).1
          ((mem_pairList _ _ _).mp hxy).2 hz
        simp [this.1, this.2]
    refine ⟨h1, ?_⟩
    rw [hsnd h1]
    exact List.countP_pos.mpr
      ⟨(cx, cy), (mem_pairList _ _ _).mpr ⟨hcx, hcy⟩, by simpa using hct⟩

/-! ### Claim C6 -/

/-- Claim C6: the exact-match predicate (flag together with a positive
non-empty count) holds iff every non-empty footprint cell is in bounds with
the grid holding exactly the piece's tile there, and at least one non-empty
tile exists; a piece with zero non-empty tiles is never an exact match. -/
theorem exactMatch_characterization (b : Board) (p : Piece) :
    ((exactMatchScan b p).1 = true ∧ 0 < (exactMatchScan b p).2) ↔
      ((∀ cx cy, cx < p.shape.length → cy < (p.shape.headD []).length →
          shapeAt p.shape cx cy ≠ 0 →
          b.inBounds (p.x + cx) (p.y + cy) ∧
            b.grid (p.y + cy) (p.x + cx) = shapeAt p.shape cx cy) ∧
        ∃ cx cy, cx < p.shape.length ∧ cy < (p.shape.headD []).length ∧
          shapeAt p.shape cx cy ≠ 0) :=
  exactMatch_iff_cells b p

/-- An exactly matching non-empty cell forces a placement collision: the grid
cell under it is non-empty. -/
lemma collision_of_match_cell (b : Board) (p : Piece) (cx cy : Nat)
    (hcx : cx < p.shape.length) (hcy : cy < (p.shape.headD []).length)
    (hct : shapeAt p.shape cx cy ≠ 0)
    (heq : b.grid (p.y + cy) (p.x + cx) = shapeAt p.shape cx cy) :
    checkPlacementCollision b p = true := by
  unfold checkPlacementCollision
  rw [List.any_eq_true]
  refine ⟨cx, List.mem_range.mpr hcx, ?_⟩
  rw [List.any_eq_true]
  refine ⟨cy, List.mem_range.mpr hcy, ?_⟩
  simp only [decide_eq_true_eq]
  exact ⟨hct, fun hC => hct (by rw [← heq, hC.2])⟩

/-! ### Claim C4 -/

/-- Claim C4: `placePiece` on an affordable exact match schedules a removal
batch over exactly the footprint cells with per-tile delta -2 and a reset
cursor, hides the piece, and mutates neither the grid nor the score, the
random stream, or the countdown (no spawn happens in this call). -/
theorem placePiece_paid_removal (g : Game) (p : Piece) (now : Int)
    (hp : g.currentPiece = some p)
    (hem : (exactMatchScan g.board p).1 = true)
    (hcnt : 0 < (exactMatchScan g.board p).2)
    (hscore : 2 * ((exactMatchScan g.board p).2 : Int) ≤ g.score) :
    (placePieceG g now).loopRemoval.active = true ∧
    (placePieceG g now).loopRemoval.cells = footprintCells p ∧
    (placePieceG g now).loopRemoval.pointsPerTile = some (-2) ∧
    (placePieceG g now).loopRemoval.index = 0 ∧
    (placePieceG g now).currentPiece = none ∧
    (placePieceG g now).board = g.board ∧
    (placePieceG g now).score = g.score ∧
    (placePieceG g now).rng = g.rng ∧
    (placePieceG g now).timerRemaining = g.timerRemaining := by
  have key : placePieceG g now = scheduleRemoval g (footprintCells p) (-2) now := by
    unfold placePieceG
    rw [hp]
    simp only
    rw [if_pos ⟨hem, hcnt⟩, if_pos hscore]
  rw [key]
  unfold scheduleRemoval
  exact ⟨rfl, rfl, rfl, rfl, rfl, rfl, rfl, rfl, rfl⟩

/-- A board whose only non-empty cell is an SK tile at (0,0). -/
def boardC4 : Board :=
  { width := 10, height := 20,
    grid := fun y x => if y = 0 ∧ x = 0 then CELL_SK else CELL_EMPTY }

/-- A one-tile SK piece hovering over that cell. -/
def pieceC4 : Piece := { shapes := [[[CELL_SK]]], rotation := 0, x := 0, y := 0 }

/-- An idle removal record as built by the game constructor. -/
def removalC0 : RemovalState :=
  { active := false, cells := [], index := 0, lastTime := 0, interval := 150,
    pointsPerTile := some 1 }

/-- A running game holding the exact-match piece with score 10. -/
def gameC4 : Game :=
  { board := boardC4, currentPiece := some pieceC4, score := 10,
    highScores := [3, 1], isRunning := true, isGameOver := false,
    timerRemaining := 10000, timerDuration := 10000, lastTimerTick := 5,
    loopRemoval := removalC0, rng := [] }

/-- Witness for C4: the affordable exact match at the concrete game. -/
theorem placePiece_paid_removal_witness :
    gameC4.currentPiece = some pieceC4 ∧
    (exactMatchScan gameC4.board pieceC4).1 = true ∧
    0 < (exactMatchScan gameC4.board pieceC4).2 ∧
    2 * ((exactMatchScan gameC4.board pieceC4).2 : Int) ≤ gameC4.score ∧
    ((placePieceG gameC4 42).loopRemoval.active = true ∧
      (placePieceG gameC4 42).loopRemoval.cells = footprintCells pieceC4 ∧
      (placePieceG gameC4 42).loopRemoval.pointsPerTile = some (-2) ∧
      (placePieceG gameC4 42).loopRemoval.index = 0 ∧
      (placePieceG gameC4 42).currentPiece = none ∧
      (placePieceG gameC4 42).board = gameC4.board ∧
      (placePieceG gameC4 42).score = gameC4.score ∧
      (placePieceG gameC4 42).rng = gameC4.rng ∧
      (placePieceG gameC4 42).timerRemaining = gameC4.timerRemaining) :=
  ⟨rfl, by decide, by decide, by decide,
    placePiece_paid_removal gameC4 pieceC4 42 rfl (by decide) (by decide) (by decide)⟩

/-! ### Claim C5 -/

/-- Claim C5: `placePiece` on an exact match the player cannot afford schedules
no removal batch and falls through to the normal collision-checked placement;
since the matched cells are occupied, that check necessarily reports a
collision and the call leaves the state unchanged. -/
theorem placePiece_unaffordable_falls_through (g : Game) (p : Piece) (now : Int)
    (hp : g.currentPiece = some p)
    (hem : (exactMatchScan g.board p).1 = true)
    (hcnt : 0 < (exactMatchScan g.board p).2)
    (hscore : g.score < 2 * ((exactMatchScan g.board p).2 : Int)) :
    checkPlacementCollision g.board p = true ∧ placePieceG g now = g := by
  have hchar := (exactMatch_iff_cells g.board p).mp ⟨hem, hcnt⟩
  obtain ⟨hall, cx, cy, hcx, hcy, hct⟩ := hchar
  have hcol : checkPlacementCollision g.board p = true :=
    collision_of_match_cell g.board p cx cy hcx hcy hct
      (hall cx cy hcx hcy hct).2
  refine ⟨hcol, ?_⟩
  unfold placePieceG
  rw [hp]
  simp only
  rw [if_pos ⟨hem, hcnt⟩, if_neg (by omega)]
  unfold placeNormal
  rw [if_pos hcol]

/-- The same game with a score too small for the removal. -/
def gameC5 : Game := { gameC4 with score := 1 }

/-- Witness for C5: the unaffordable exact match at the concrete game. -/
theorem placePiece_unaffordable_falls_through_witness :
    gameC5.currentPiece = some pieceC4 ∧
    (exactMatchScan gameC5.board pieceC4).1 = true ∧
    0 < (exactMatchScan gameC5.board pieceC4).2 ∧
    gameC5.score < 2 * ((exactMatchScan gameC5.board pieceC4).2 : Int) ∧
    (checkPlacementCollision gameC5.board pieceC4 = true ∧
      placePieceG gameC5 42 = gameC5) :=
  ⟨rfl, by decide, by decide, by decide,
    placePiece_unaffordable_falls_through gameC5 pieceC4 42 rfl
      (by decide) (by decide) (by decide)⟩

/-! ### Claim C2 -/

/-- A game in which a one-cell reward batch is about to clear the last
non-empty cell of the board. -/
def gameC2 : Game :=
  { board := boardC4, currentPiece := none, score := 10, highScores := [],
    isRunning := true, isGameOver := false, timerRemaining := 10000,
    timerDuration := 10000, lastTimerTick := 5,
    loopRemoval := { active := true, cells := [(0, 0)], index := 0, lastTime := 0,
                     interval := 150, pointsPerTile := some 1 }, rng := [] }

/-- Counterexample to claim C2 as stated: the batch completes and empties the
board, the score before the final per-tile delta is 10, yet the resulting
score is 22 = 2*(10+1), not 2*10 — the doubling happens after the final
delta was applied, not before. -/
theorem removal_empty_double_counterexample :
    gameC2.loopRemoval.cells.length ≤ gameC2.loopRemoval.index + 1 ∧
    boardEmptyB (updateG gameC2 150).board = true ∧
    (updateG gameC2 150).loopRemoval.active = false ∧
    (updateG gameC2 150).score = 22 ∧
    ¬ (updateG gameC2 150).score = 2 * gameC2.score := by
  decide

lemma spawn_score (g : Game) (now : Int) : (spawnPieceG g now).score = g.score := rfl

/-- Claim C2 (amended): when an update call completes a removal batch whose
final cleared tile leaves every grid cell Empty, the resulting score equals
exactly 2 times the score immediately AFTER the final tile's per-tile
deduction/addition was applied. -/
theorem removal_completion_empty_doubles (g : Game) (now : Int) (c : Coord)
    (hA : g.loopRemoval.active = true)
    (hT : g.loopRemoval.interval ≤ now - g.loopRemoval.lastTime)
    (hC : g.loopRemoval.cells.get? g.loopRemoval.index = some c)
    (hFin : g.loopRemoval.cells.length ≤ g.loopRemoval.index + 1)
    (hInB : g.board.inBounds c.1 c.2)
    (hEmpty : boardEmptyB (g.board.setCell c.1 c.2 CELL_EMPTY) = true) :
    (updateG g now).score = 2 * (g.score + g.loopRemoval.pointsPerTile.getD 1) := by
  have h1 : updateG g now = removalPhase g now := by
    simp only [updateG]
    by_cases hR : g.isRunning = true ∧ g.isGameOver = false
    · rw [if_pos hR, if_neg (by simp [hA])]
    · rw [if_neg hR]
  rw [h1]
  simp only [removalPhase]
  rw [if_neg (by simp [hA]), if_pos hT, hC]
  simp only [clearCell]
  rw [if_pos hInB, if_pos hFin]
  simp only
  rw [if_pos hEmpty]
  rw [spawn_score]
  ring

/-- Witness for C2 (amended) at the concrete completing batch. -/
theorem removal_completion_empty_doubles_witness :
    gameC2.loopRemoval.active = true ∧
    gameC2.loopRemoval.interval ≤ 150 - gameC2.loopRemoval.lastTime ∧
    gameC2.loopRemoval.cells.get? gameC2.loopRemoval.index = some (0, 0) ∧
    gameC2.loopRemoval.cells.length ≤ gameC2.loopRemoval.index + 1 ∧
    gameC2.board.inBounds 0 0 ∧
    boardEmptyB (gameC2.board.setCell 0 0 CELL_EMPTY) = true ∧
    (updateG gameC2 150).score = 2 * (gameC2.score + gameC2.loopRemoval.pointsPerTile.getD 1) :=
  ⟨rfl, by decide, rfl, by decide, by decide, by decide,
    removal_completion_empty_doubles gameC2 150 (0, 0) rfl (by decide) rfl
      (by decide) (by decide) (by decide)⟩

/-! ### Claim C9 -/

lemma rotate_keeps_x (p : Piece) : p.rotate.x = p.x := by
  unfold Piece.rotate; split <;> rfl

lemma rotate_keeps_y (p : Piece) : p.rotate.y = p.y := by
  unfold Piece.rotate; split <;> rfl

/-- The first kick pair tried is (0,0); when the clamped anchor already
satisfies the bounds the search accepts it immediately. -/
lemma find_kick_zero (minXA maxXA minYA maxYA bx bv : Int)
    (h1 : minXA ≤ bx) (h2 : bx ≤ maxXA) (h3 : minYA ≤ bv) (h4 : bv ≤ maxYA) :
    kickPairs.find? (fun k =>
      decide (minXA ≤ bx + k.1) && decide (bx + k.1 ≤ maxXA) &&
      decide (minYA ≤ bv + k.2) && decide (bv + k.2 ≤ maxYA)) = some (0, 0) := by
  have e : kickPairs = (0, 0) :: kickPairs.tail := rfl
  rw [e, List.find?_cons]
  have : (decide (minXA ≤ bx + (0 : Int)) && decide (bx + (0 : Int) ≤ maxXA) &&
      decide (minYA ≤ bv + (0 : Int)) && decide (bv + (0 : Int) ≤ maxYA)) = true := by
    simp only [add_zero, Bool.and_eq_true, decide_eq_true_eq]
    exact ⟨⟨⟨h1, h2⟩, h3⟩, h4⟩
  rw [this]

/-- Claim C9: whenever the post-rotation shape has occupied cells and its
bounding box fits inside the grid, `rotatePiece` accepts the kick offset
(0,0): the piece keeps the new rotation and its anchor is exactly the old
anchor clamped into the allowed range; the revert branch is not taken and
nothing else changes. -/
theorem rotate_kick_accepts_zero (g : Game) (p : Piece)
    (hp : g.currentPiece = some p)
    (hocc : occupiedCells p.rotate.shape ≠ [])
    (hfitX : natMax ((occupiedCells p.rotate.shape).map Prod.fst) + 1 ≤
      g.board.width + natMin ((occupiedCells p.rotate.shape).map Prod.fst))
    (hfitY : natMax ((occupiedCells p.rotate.shape).map Prod.snd) + 1 ≤
      g.board.height + natMin ((occupiedCells p.rotate.shape).map Prod.snd)) :
    rotatePieceG g = { g with currentPiece := some { p.rotate with
      x := min (max p.x (-(natMin ((occupiedCells p.rotate.shape).map Prod.fst) : Int)))
        ((g.board.width : Int) - 1 - (natMax ((occupiedCells p.rotate.shape).map Prod.fst) : Int)),
      y := min (max p.y (-(natMin ((occupiedCells p.rotate.shape).map Prod.snd) : Int)))
        ((g.board.height : Int) - 1 - (natMax ((occupiedCells p.rotate.shape).map Prod.snd) : Int)) } } := by
  have hxa : -(natMin ((occupiedCells p.rotate.shape).map Prod.fst) : Int) ≤
      (g.board.width : Int) - 1 - (natMax ((occupiedCells p.rotate.shape).map Prod.fst) : Int) := by
    omega
  have hya : -(natMin ((occupiedCells p.rotate.shape).map Prod.snd) : Int) ≤
      (g.board.height : Int) - 1 - (natMax ((occupiedCells p.rotate.shape).map Prod.snd) : Int) := by
    omega
  simp only [rotatePieceG, hp]
  rw [if_neg hocc]
  rw [find_kick_zero _ _ _ _ _ _ (by omega) (by omega) (by omega) (by omega)]
  simp [rotate_keeps_x, rotate_keeps_y]

/-- An empty default board. -/
def emptyBoard : Board := { width := 10, height := 20, grid := fun _ _ => CELL_EMPTY }

/-- A single-variant vertical domino of SK tiles at anchor (4,3). -/
def pieceC9 : Piece := { shapes := [[[CELL_SK], [CELL_SK]]], rotation := 0, x := 4, y := 3 }

/-- A running game holding that piece over the empty board. -/
def gameC9 : Game := { gameC4 with board := emptyBoard, currentPiece := some pieceC9 }

/-- Witness for C9 at the concrete rotation. -/
theorem rotate_kick_accepts_zero_witness :
    gameC9.currentPiece = some pieceC9 ∧
    occupiedCells pieceC9.rotate.shape ≠ [] ∧
    natMax ((occupiedCells pieceC9.rotate.shape).map Prod.fst) + 1 ≤
      gameC9.board.width + natMin ((occupiedCells pieceC9.rotate.shape).map Prod.fst) ∧
    natMax ((occupiedCells pieceC9.rotate.shape).map Prod.snd) + 1 ≤
      gameC9.board.height + natMin ((occupiedCells pieceC9.rotate.shape).map Prod.snd) ∧
    rotatePieceG gameC9 = { gameC9 with currentPiece := some { pieceC9.rotate with
      x := min (max pieceC9.x
          (-(natMin ((occupiedCells pieceC9.rotate.shape).map Prod.fst) : Int)))
        ((gameC9.board.width : Int) - 1 -
          (natMax ((occupiedCells pieceC9.rotate.shape).map Prod.fst) : Int)),
      y := min (max pieceC9.y
          (-(natMin ((occupiedCells pieceC9.rotate.shape).map Prod.snd) : Int)))
        ((gameC9.board.height : Int) - 1 -
          (natMax ((occupiedCells pieceC9.rotate.shape).map Prod.snd) : Int)) } } :=
  ⟨rfl, by decide, by decide, by decide,
    rotate_kick_accepts_zero gameC9 pieceC9 rfl (by decide) (by decide) (by decide)⟩

/-! ### Claim C7 -/

/-- `sortDesc` really sorts descending. -/
lemma sortDesc_sorted (l : List Int) :
    List.Pairwise (fun a b => b ≤ a) (sortDesc l) := by
  have h := @List.sorted_mergeSort Int (fun a b => decide (b ≤ a))
    (fun a b c h1 h2 => by
      simp only [decide_eq_true_eq] at h1 h2 ⊢; omega)
    (fun a b => by
      simp only [Bool.or_eq_true, decide_eq_true_eq]; omega)
    l
  exact h.imp (fun hab => by simpa using hab)

/-- Claim C7: when the countdown expires while the current piece is an exact
match the player cannot afford, or no exact match and its placement collides,
the update call ends the game: running becomes false, game-over becomes true,
and the pre-timeout score is appended to the high-score list, which is sorted
descending and truncated to 10 entries. -/
theorem timeout_dead_end_game_over (g : Game) (p : Piece) (now : Int)
    (hRun : g.isRunning = true) (hOver : g.isGameOver = false)
    (hBatch : g.loopRemoval.active = false)
    (hp : g.currentPiece = some p)
    (hTick : g.lastTimerTick ≠ 0)
    (hTime : g.timerRemaining ≤ now - g.lastTimerTick)
    (hFail : ((exactMatchScan g.board p).1 = true ∧ 0 < (exactMatchScan g.board p).2 ∧
        g.score < 2 * ((exactMatchScan g.board p).2 : Int)) ∨
      (¬ ((exactMatchScan g.board p).1 = true ∧ 0 < (exactMatchScan g.board p).2) ∧
        checkPlacementCollision g.board p = true)) :
    (updateG g now).isRunning = false ∧
    (updateG g now).isGameOver = true ∧
    (updateG g now).score = g.score ∧
    (updateG g now).highScores = (sortDesc (g.highScores ++ [g.score])).take 10 ∧
    (updateG g now).highScores.length ≤ 10 ∧
    List.Pairwise (fun a b => b ≤ a) (updateG g now).highScores := by
  have key : updateG g now = endG { g with lastTimerTick := now, timerRemaining := 0 } := by
    have e : max 0 (g.timerRemaining -
        (now - (if g.lastTimerTick = 0 then now else g.lastTimerTick))) = 0 := by
      rw [if_neg hTick]; omega
    simp only [updateG]
    rw [if_pos ⟨hRun, hOver⟩, if_pos hBatch, e]
    rw [if_pos (le_refl (0 : Int))]
    have hend : handleTimeout { g with lastTimerTick := now, timerRemaining := 0 } now =
        endG { g with lastTimerTick := now, timerRemaining := 0 } := by
      simp only [handleTimeout, hp]
      rcases hFail with ⟨hem, hcnt, hsc⟩ | ⟨hnem, hcol⟩
      · rw [if_pos ⟨hem, hcnt⟩, if_neg (by omega)]
      · rw [if_neg hnem, if_pos hcol]
    rw [hend]
    simp only [removalPhase, endG]
    rw [if_pos hBatch]
  rw [key]
  refine ⟨rfl, rfl, rfl, rfl, List.length_take_le 10 _, ?_⟩
  exact ((sortDesc_sorted _).sublist (List.take_sublist _ _))

/-- A one-tile WG piece hovering over the occupied SK cell: not an exact
match, and placement collides. -/
def pieceC7 : Piece := { shapes := [[[CELL_WG]]], rotation := 0, x := 0, y := 0 }

/-- A running game whose countdown has fewer milliseconds left than have
elapsed at the next tick. -/
def gameC7 : Game := { gameC4 with currentPiece := some pieceC7, timerRemaining := 3 }

/-- Witness for C7 at the concrete expiring game. -/
theorem timeout_dead_end_game_over_witness :
    gameC7.isRunning = true ∧ gameC7.isGameOver = false ∧
    gameC7.loopRemoval.active = false ∧
    gameC7.currentPiece = some pieceC7 ∧
    gameC7.lastTimerTick ≠ 0 ∧
    gameC7.timerRemaining ≤ 20 - gameC7.lastTimerTick ∧
    (¬ ((exactMatchScan gameC7.board pieceC7).1 = true ∧
        0 < (exactMatchScan gameC7.board pieceC7).2) ∧
      checkPlacementCollision gameC7.board pieceC7 = true) ∧
    ((updateG gameC7 20).isRunning = false ∧
      (updateG gameC7 20).isGameOver = true ∧
      (updateG gameC7 20).score = gameC7.score ∧
      (updateG gameC7 20).highScores =
        (sortDesc (gameC7.highScores ++ [gameC7.score])).take 10 ∧
      (updateG gameC7 20).highScores.length ≤ 10 ∧
      List.Pairwise (fun a b => b ≤ a) (updateG gameC7 20).highScores) :=
  ⟨rfl, rfl, rfl, rfl, by decide, by decide, by decide,
    timeout_dead_end_game_over gameC7 pieceC7 20 rfl rfl rfl rfl (by decide) (by decide)
      (Or.inr (by decide))⟩

/-! ### Claim C8: idempotence of update at an unchanged timestamp -/

/-- After an update at time `now`, a running, animation-free state has its
reference tick at `now` and a strictly positive countdown. -/
def clause1 (g : Game) (now : Int) : Prop :=
  g.isRunning = true → g.isGameOver = false → g.loopRemoval.active = false →
    g.lastTimerTick = now ∧ 0 < g.timerRemaining

/-- After an update at time `now`, an active batch has strictly less than one
animation interval of elapsed time. -/
def batchFresh (g : Game) (now : Int) : Prop :=
  g.loopRemoval.active = true → now - g.loopRemoval.lastTime < g.loopRemoval.interval

lemma clearCell_timerDuration (g : Game) (c? : Option Coord) (ppt : Int) :
    (clearCell g c? ppt).timerDuration = g.timerDuration := by
  rcases c? with _ | c
  · rfl
  · simp only [clearCell]
    split <;> rfl

lemma placeNormal_duration (g : Game) (piece : Piece) (now : Int) :
    (placeNormal g piece now).timerDuration = g.timerDuration := by
  simp only [placeNormal]
  split
  · rfl
  · split <;> rfl

lemma placeNormal_interval (g : Game) (piece : Piece) (now : Int) :
    (placeNormal g piece now).loopRemoval.interval = g.loopRemoval.interval := by
  simp only [placeNormal]
  split
  · rfl
  · split <;> rfl

lemma placePieceG_duration (g : Game) (now : Int) :
    (placePieceG g now).timerDuration = g.timerDuration := by
  simp only [placePieceG]
  split
  · rfl
  · split
    · split
      · rfl
      · apply placeNormal_duration
    · apply placeNormal_duration

lemma placePieceG_interval (g : Game) (now : Int) :
    (placePieceG g now).loopRemoval.interval = g.loopRemoval.interval := by
  simp only [placePieceG]
  split
  · rfl
  · split
    · split
      · rfl
      · apply placeNormal_interval
    · apply placeNormal_interval

lemma handleTimeout_duration (g : Game) (now : Int) :
    (handleTimeout g now).timerDuration = g.timerDuration := by
  simp only [handleTimeout]
  split
  · rfl
  · split
    · split
      · rfl
      · rfl
    · split
      · rfl
      · apply placePieceG_duration

lemma handleTimeout_interval (g : Game) (now : Int) :
    (handleTimeout g now).loopRemoval.interval = g.loopRemoval.interval := by
  simp only [handleTimeout]
  split
  · rfl
  · split
    · split
      · rfl
      · rfl
    · split
      · rfl
      · apply placePieceG_interval

lemma handleTimeout_clause1 (g : Game) (now : Int) (hD : 0 < g.timerDuration) :
    clause1 (handleTimeout g now) now := by
  simp only [handleTimeout]
  split
  · intro hr
    simp [endG] at hr
  · split
    · split
      · intro _ _ hact
        simp [scheduleRemoval] at hact
      · intro hr
        simp [endG] at hr
    · split
      · intro hr
        simp [endG] at hr
      · intro _ _ _
        refine ⟨rfl, ?_⟩
        show 0 < (placePieceG g now).timerDuration
        rw [placePieceG_duration]
        exact hD

/-- The removal half always leaves a settled state, whatever it did, provided
the incoming state was settled on the timer side. -/
lemma settled_removalPhase (g : Game) (now : Int)
    (hI : 0 < g.loopRemoval.interval) (hD : 0 < g.timerDuration)
    (h1 : clause1 g now) :
    clause1 (removalPhase g now) now ∧ batchFresh (removalPhase g now) now := by
  simp only [removalPhase]
  by_cases hA : g.loopRemoval.active = false
  · rw [if_pos hA]
    refine ⟨h1, fun hact => absurd hact (by simp [hA])⟩
  · rw [if_neg hA]
    by_cases hT : g.loopRemoval.interval ≤ now - g.loopRemoval.lastTime
    · rw [if_pos hT]
      by_cases hF : g.loopRemoval.cells.length ≤ g.loopRemoval.index + 1
      · rw [if_pos hF]
        constructor
        · intro _ _ _
          refine ⟨rfl, ?_⟩
          show 0 < (if _ = true then _ else _ : Game).timerDuration
          split <;> · show 0 < (clearCell _ _ _).timerDuration
                      rw [clearCell_timerDuration]
                      exact hD
        · intro hact
          revert hact
          show (if _ = true then _ else _ : Game).loopRemoval.active = true → _
          split <;> exact fun hact => Bool.noConfusion hact
      · rw [if_neg hF]
        constructor
        · intro _ _ hact
          exact absurd hact hA
        · intro _
          show now - now < g.loopRemoval.interval
          omega
    · rw [if_neg hT]
      refine ⟨h1, fun _ => ?_⟩
      omega

/-- Any update leaves a settled state. -/
lemma settled_update (g : Game) (now : Int)
    (hI : 0 < g.loopRemoval.interval) (hD : 0 < g.timerDuration) :
    clause1 (updateG g now) now ∧ batchFresh (updateG g now) now := by
  simp only [updateG]
  by_cases hR : g.isRunning = true ∧ g.isGameOver = false
  · rw [if_pos hR]
    by_cases hA : g.loopRemoval.active = false
    · rw [if_pos hA]
      by_cases hrem : max 0 (g.timerRemaining -
          (now - (if g.lastTimerTick = 0 then now else g.lastTimerTick))) ≤ 0
      · rw [if_pos hrem]
        apply settled_removalPhase
        · rw [handleTimeout_interval]
          exact hI
        · rw [handleTimeout_duration]
          exact hD
        · exact handleTimeout_clause1 _ now hD
      · rw [if_neg hrem]
        apply settled_removalPhase
        · exact hI
        · exact hD
        · intro _ _ _
          refine ⟨rfl, ?_⟩
          show 0 < max 0 (g.timerRemaining -
            (now - (if g.lastTimerTick = 0 then now else g.lastTimerTick)))
          omega
    · rw [if_neg hA]
      exact settled_removalPhase g now hI hD (fun _ _ h3 => absurd h3 hA)
  · rw [if_neg hR]
    apply settled_removalPhase g now hI hD
    intro hr ho _
    exact absurd ⟨hr, ho⟩ hR

/-- A settled state is a fixed point of `updateG` at the same timestamp. -/
lemma settled_noop (g : Game) (now : Int)
    (h1 : clause1 g now) (h2 : batchFresh g now) : updateG g now = g := by
  have hrp : removalPhase g now = g := by
    simp only [removalPhase]
    by_cases hA : g.loopRemoval.active = false
    · rw [if_pos hA]
    · rw [if_neg hA]
      have hfr := h2 (by revert hA; cases g.loopRemoval.active <;> simp)
      rw [if_neg (by omega)]
  simp only [updateG]
  by_cases hR : g.isRunning = true ∧ g.isGameOver = false
  · rw [if_pos hR]
    by_cases hA : g.loopRemoval.active = false
    · rw [if_pos hA]
      obtain ⟨htick, hrem⟩ := h1 hR.1 hR.2 hA
      have e1 : (if g.lastTimerTick = 0 then now else g.lastTimerTick) = now := by
        split
        · omega
        · exact htick
      rw [e1]
      have e2 : max 0 (g.timerRemaining - (now - now)) = g.timerRemaining := by omega
      rw [e2]
      rw [if_neg (by omega)]
      have e3 : { g with lastTimerTick := now, timerRemaining := g.timerRemaining } = g := by
        rw [← htick]
      rw [e3, hrp]
    · rw [if_neg hA, hrp]
  · rw [if_neg hR, hrp]

/-- Claim C8: a second `update` call at the timestamp of the previous call is
a complete no-op (for any state whose animation interval and timer duration
are positive, as every constructed game state's are): the state — in
particular the countdown, the batch cursor, the score, the grid and the
current piece — is unchanged. -/
theorem update_idempotent (g : Game) (now : Int)
    (hI : 0 < g.loopRemoval.interval) (hD : 0 < g.timerDuration) :
    updateG (updateG g now) now = updateG g now ∧
    (updateG (updateG g now) now).timerRemaining = (updateG g now).timerRemaining ∧
    (updateG (updateG g now) now).loopRemoval.index = (updateG g now).loopRemoval.index ∧
    (updateG (updateG g now) now).score = (updateG g now).score ∧
    (updateG (updateG g now) now).board.grid = (updateG g now).board.grid ∧
    (updateG (updateG g now) now).currentPiece = (updateG g now).currentPiece := by
  obtain ⟨h1, h2⟩ := settled_update g now hI hD
  have e := settled_noop (updateG g now) now h1 h2
  exact ⟨e, by rw [e], by rw [e], by rw [e], by rw [e], by rw [e]⟩

/-- Witness for C8 at a concrete running game. -/
theorem update_idempotent_witness :
    0 < gameC4.loopRemoval.interval ∧ 0 < gameC4.timerDuration ∧
    (updateG (updateG gameC4 7) 7 = updateG gameC4 7 ∧
      (updateG (updateG gameC4 7) 7).timerRemaining = (updateG gameC4 7).timerRemaining ∧
      (updateG (updateG gameC4 7) 7).loopRemoval.index = (updateG gameC4 7).loopRemoval.index ∧
      (updateG (updateG gameC4 7) 7).score = (updateG gameC4 7).score ∧
      (updateG (updateG gameC4 7) 7).board.grid = (updateG gameC4 7).board.grid ∧
      (updateG (updateG gameC4 7) 7).currentPiece = (updateG gameC4 7).currentPiece) :=
  ⟨by decide, by decide, update_idempotent gameC4 7 (by decide) (by decide)⟩

end DoubleApp
